import Mathlib

/-!
Verification of the jai ticket document codec and focus context.

This file is a shallow embedding, in Lean 4, of the core of the jai
repository:

* the markdown ticket codec of `internal/markdown/parser.go`
  (`extractTickets`, `parseMetadataLine`, `parseMetadataLines`,
  `isTicketHeader`, `parseTicketHeader`, `extractJiraKey`,
  `GenerateMarkdown`, `generateHeader`, `RemoveJiraKey`, `ParseFile`),
* the focus context state machine of the context manager
  (`SetEpic`, `SetTask`, `HasTask`, `HasSubtask`, `String`),
* the directory scans `findAllTickets` (cmd/status_tree.go) and
  `searchTickets` (the focus command),
* the data model of the `types` package, whose source is appended at the
  end of internal/jira/client.go (`TicketType`, `Ticket`, `Context`,
  `MarkdownFile`).

Go strings are modelled as Lean `String`s (worked on through their
`.data` character lists); machine-level effects (file IO) are modelled
by passing the file system in as an explicit map.  The two regular
expressions of parser.go contain no constructs beyond greedy character
classes and optional literal brackets, so they are embedded as
deterministic character-list matchers.
-/

/-- Go `type TicketType string` (internal/jira/client.go:311-312, in the
`types` package source appended there): a string type, so its zero value
is the empty string and values outside the four named constants are
representable. -/
abbrev TicketType := String

/-- Go `types.TicketTypeEpic` (internal/jira/client.go:314-319). -/
def TicketTypeEpic : TicketType := "epic"

/-- Go `types.TicketTypeTask` (internal/jira/client.go:314-319). -/
def TicketTypeTask : TicketType := "task"

/-- Go `types.TicketTypeSubtask` (internal/jira/client.go:314-319). -/
def TicketTypeSubtask : TicketType := "subtask"

/-- Go `types.TicketTypeSpike` (internal/jira/client.go:314-319). -/
def TicketTypeSpike : TicketType := "spike"

/-- Go `types.Ticket` (internal/jira/client.go:287-308), restricted to
the fields the document codec and the focus code read or write: `Key`,
`Type`, `Title`, `Status`, `Priority`, `EpicKey`, `ParentKey`,
`RawContent`, `Enriched` and `LineNumber`.  The omitted fields (`ID`,
`Description`, `Labels`, `Components`, `Assignee`, `Reporter`, the
timestamps, `DueDate`, `CustomFields`) are never touched by parser.go or
the context manager.  Go zero values are the defaults; in particular the
zero `Type` is the empty string. -/
structure Ticket where
  key : String := ""
  type : TicketType := ""
  title : String := ""
  status : String := ""
  priority : String := ""
  epicKey : String := ""
  parentKey : String := ""
  rawContent : String := ""
  enriched : String := ""
  lineNumber : Nat := 0
deriving DecidableEq, Repr

/-- Go `types.MarkdownFile` (internal/jira/client.go:346-350):
originating path, parsed tickets, raw text. -/
structure MarkdownFile where
  path : String
  tickets : List Ticket
  content : String
deriving DecidableEq, Repr

/-- Go `unicode.IsSpace` for the characters that can actually occur in
this codec's documents (ASCII whitespace plus NEL and NBSP). -/
def goIsSpace (c : Char) : Bool :=
  c = ' ' || c = '\t' || c = '\n' || c = '\x0b' || c = '\x0c' || c = '\r' ||
  c = '\u0085' || c = ' '

/-- Left trim on character lists (`strings.TrimSpace`, leading side). -/
def ltrimC (l : List Char) : List Char := l.dropWhile goIsSpace

/-- Right trim on character lists (`strings.TrimSpace`, trailing side). -/
def rtrimC (l : List Char) : List Char := (l.reverse.dropWhile goIsSpace).reverse

/-- Both-ends trim on character lists. -/
def trimC (l : List Char) : List Char := ltrimC (rtrimC l)

/-- Go `strings.TrimSpace`. -/
def trimSpace (s : String) : String := String.mk (trimC s.data)

/-- Boolean prefix test on character lists, by pairwise comparison (the
loop underlying Go `strings.HasPrefix`). -/
def isPreC : List Char → List Char → Bool
  | [], _ => true
  | _ :: _, [] => false
  | a :: as, b :: bs => a == b && isPreC as bs

/-- Go `strings.HasPrefix s p`. -/
def hasPre (s p : String) : Bool := isPreC p.data s.data

/-- Go `strings.HasSuffix s p`. -/
def hasSuf (s p : String) : Bool := isPreC p.data.reverse s.data.reverse

/-- Go `strings.TrimPrefix s p`: drop `p` from the front when present. -/
def trimPre (s p : String) : String :=
  if hasPre s p then String.mk (s.data.drop p.data.length) else s

/-- Go `strings.Join(lines, "\n")`. -/
def joinLines : List String → String
  | [] => ""
  | [x] => x
  | x :: xs => x ++ "\n" ++ joinLines xs

/-- One split step of `bufio.Scanner` with `ScanLines`: accumulate the
current line (in reverse) until a newline; the final unterminated chunk
is emitted only when non-empty. -/
def splitLinesAux : List Char → List Char → List (List Char)
  | [], acc => if acc.isEmpty then [] else [acc.reverse]
  | c :: rest, acc =>
    if c = '\n' then acc.reverse :: splitLinesAux rest []
    else splitLinesAux rest (c :: acc)

/-- Go `bufio.ScanLines` drops one trailing carriage return per line. -/
def dropCR (l : List Char) : List Char :=
  match l.reverse with
  | '\r' :: rest => rest.reverse
  | _ => l

/-- The sequence of lines `bufio.Scanner` yields for a string. -/
def splitLinesGo (s : String) : List String :=
  (splitLinesAux s.data []).map (fun l => String.mk (dropCR l))

/-- Uppercase ASCII letter, the `[A-Z]` class of parser.go's patterns. -/
def isUpperGo (c : Char) : Bool := 'A' ≤ c && c ≤ 'Z'

/-- ASCII digit, the `\d` class of parser.go's patterns. -/
def isDigitGo (c : Char) : Bool := '0' ≤ c && c ≤ '9'

/-- The RE2 `\s` class: `[\t\n\f\r ]`. -/
def regexSp (c : Char) : Bool :=
  c = '\t' || c = '\n' || c = '\x0c' || c = '\r' || c = ' '

/-- Anchored match of `\[?([A-Z]+-\d+)\]?` at the head of the list: the
capture group (letters, hyphen, digits) when the pattern matches here.
The pattern has no backtracking (classes are disjoint), so the greedy
left-to-right scan is exact for Go's leftmost-first semantics. -/
def keyAt (cs : List Char) : Option (List Char) :=
  let s1 := match cs with
    | '[' :: r => r
    | _ => cs
  let letters := s1.takeWhile isUpperGo
  if letters.isEmpty then none
  else
    match s1.drop letters.length with
    | '-' :: s2 =>
      let digits := s2.takeWhile isDigitGo
      if digits.isEmpty then none
      else some (letters ++ '-' :: digits)
    | _ => none

/-- Leftmost match of `\[?([A-Z]+-\d+)\]?`: try each start position. -/
def findKey : List Char → Option (List Char)
  | [] => none
  | c :: cs =>
    match keyAt (c :: cs) with
    | some g => some g
    | none => findKey cs

/-- Go `extractJiraKey`: the first capture of `\[?([A-Z]+-\d+)\]?` in the
text, or the empty string when there is no match (parser.go:220-228). -/
def extractJiraKey (text : String) : String :=
  match findKey text.data with
  | some g => String.mk g
  | none => ""

/-- Anchored match of `\s*\[?[A-Z]+-\d+\]?\s*` at the head of the list:
the remainder after the whole match when the pattern matches here.  Every
match consumes at least the letters, hyphen and digits, so it is
non-empty. -/
def rmAt (cs : List Char) : Option (List Char) :=
  let s1 := cs.dropWhile regexSp
  let s2 := match s1 with
    | '[' :: r => r
    | _ => s1
  let letters := s2.takeWhile isUpperGo
  if letters.isEmpty then none
  else
    match s2.drop letters.length with
    | '-' :: s3 =>
      let digits := s3.takeWhile isDigitGo
      if digits.isEmpty then none
      else
        let s4 := s3.drop digits.length
        let s5 := match s4 with
          | ']' :: r => r
          | _ => s4
        some (s5.dropWhile regexSp)
    | _ => none

/-- `re.ReplaceAllString(text, "")` for `\s*\[?[A-Z]+-\d+\]?\s*`: scan
left to right, deleting each leftmost non-overlapping match.  Fuel keeps
the recursion structural; every match consumes at least three characters,
so fuel equal to the length of the list is always enough. -/
def dropMatchesF : Nat → List Char → List Char
  | 0, cs => cs
  | _ + 1, [] => []
  | f + 1, c :: cs =>
    match rmAt (c :: cs) with
    | some rest => dropMatchesF f rest
    | none => c :: dropMatchesF f cs

/-- Whether `\s*\[?[A-Z]+-\d+\]?\s*` matches anywhere in the list. -/
def hasMatch : List Char → Bool
  | [] => false
  | c :: cs => (rmAt (c :: cs)).isSome || hasMatch cs

/-- Go `RemoveJiraKey` (parser.go:316-319): delete every match of
`\s*\[?[A-Z]+-\d+\]?\s*`, then `strings.TrimSpace` the result. -/
def RemoveJiraKey (text : String) : String :=
  String.mk (trimC (dropMatchesF text.data.length text.data))

/-- Go `isTicketHeader` (parser.go:184-189). -/
def isTicketHeader (line : String) : Bool :=
  let l := trimSpace line
  hasPre l "# epic:" || hasPre l "## task:" || hasPre l "### subtask:"

/-- Go `parseTicketHeader` (parser.go:192-217): type and title from the
marker, then the Jira key extracted from the title (and left in place in
the title). -/
def parseTicketHeader (line : String) (lineNum : Nat) : Ticket :=
  let l := trimSpace line
  let t : Ticket :=
    if hasPre l "# epic:" then
      { lineNumber := lineNum, type := TicketTypeEpic,
        title := trimSpace (trimPre l "# epic:") }
    else if hasPre l "## task:" then
      { lineNumber := lineNum, type := TicketTypeTask,
        title := trimSpace (trimPre l "## task:") }
    else if hasPre l "### subtask:" then
      { lineNumber := lineNum, type := TicketTypeSubtask,
        title := trimSpace (trimPre l "### subtask:") }
    else
      { lineNumber := lineNum }
  let k := extractJiraKey t.title
  if k ≠ "" then { t with key := k } else t

/-- Go `parseMetadataLine` (parser.go:144-181): trim, require the `"- "`
bullet, then dispatch on the field name; `ParentKey` goes to the epic
reference for a task and to the parent-task reference for a subtask, and
`TaskKey` to the parent-task reference for a subtask only. -/
def parseMetadataLine (metaLine : String) (ticket : Ticket) : Ticket :=
  let m0 := trimSpace metaLine
  if hasPre m0 "- " then
    let m := trimPre m0 "- "
    if hasPre m "Key:" then
      { ticket with key := trimSpace (trimPre m "Key:") }
    else if hasPre m "Status:" then
      { ticket with status := trimSpace (trimPre m "Status:") }
    else if hasPre m "Priority:" then
      { ticket with priority := trimSpace (trimPre m "Priority:") }
    else if hasPre m "EpicKey:" then
      { ticket with epicKey := trimSpace (trimPre m "EpicKey:") }
    else if hasPre m "ParentKey:" then
      if ticket.type = TicketTypeTask then
        { ticket with epicKey := trimSpace (trimPre m "ParentKey:") }
      else if ticket.type = TicketTypeSubtask then
        { ticket with parentKey := trimSpace (trimPre m "ParentKey:") }
      else ticket
    else if hasPre m "TaskKey:" then
      if ticket.type = TicketTypeSubtask then
        { ticket with parentKey := trimSpace (trimPre m "TaskKey:") }
      else ticket
    else if hasPre m "ParentTask:" then
      { ticket with parentKey := trimSpace (trimPre m "ParentTask:") }
    else if hasPre m "ParentEpic:" then
      { ticket with epicKey := trimSpace (trimPre m "ParentEpic:") }
    else ticket
  else ticket

/-- Go `parseMetadataLines` (parser.go:136-141): each line trimmed, then
fed to `parseMetadataLine`. -/
def parseMetadataLines (lines : List String) (ticket : Ticket) : Ticket :=
  lines.foldl (fun t l => parseMetadataLine (trimSpace l) t) ticket

/-- The loop state of Go `extractTickets` (parser.go:56-133): tickets
emitted so far, the open ticket, whether a ticket is open, the body
accumulator, the metadata flag and the line counter. -/
structure ExtractState where
  tickets : List Ticket := []
  current : Ticket := {}
  inTicket : Bool := false
  lines : List String := []
  inMetadata : Bool := false
  lineNum : Nat := 0
deriving DecidableEq, Repr

/-- The scan loop of Go `extractTickets` (parser.go:66-120), one case per
branch of the Go loop body.  A header closes the open ticket and opens a
new one; inside a ticket a line trimming to `"---"` triggers the
metadata lookahead, which consumes the next line unconditionally: the
marker starts a metadata block (clearing the body accumulator after
feeding it to `parseMetadataLines`), anything else pushes both lines
back into the body. -/
def extractLoop : List String → ExtractState → ExtractState
  | [], st => st
  | line :: rest, st =>
    if isTicketHeader line then
      extractLoop rest
        { tickets :=
            if st.inTicket then
              st.tickets ++
                [{ st.current with rawContent := trimSpace (joinLines st.lines) }]
            else st.tickets,
          current := parseTicketHeader line (st.lineNum + 1),
          inTicket := true, lines := [], inMetadata := false,
          lineNum := st.lineNum + 1 }
    else if st.inTicket then
      if trimSpace line = "---" then
        match rest with
        | next :: rest2 =>
          if trimSpace next = "*Metadata:*" then
            extractLoop rest2
              { st with current := parseMetadataLines st.lines st.current,
                        lines := [], inMetadata := true,
                        lineNum := st.lineNum + 2 }
          else
            extractLoop rest2
              { st with lines := st.lines ++ [line, next],
                        lineNum := st.lineNum + 2 }
        | [] =>
          { st with lines := st.lines ++ [line], lineNum := st.lineNum + 1 }
      else if st.inMetadata then
        if trimSpace line = "---" ∨ trimSpace line = "" then
          extractLoop rest { st with inMetadata := false, lineNum := st.lineNum + 1 }
        else
          extractLoop rest
            { st with current := parseMetadataLine line st.current,
                      lineNum := st.lineNum + 1 }
      else
        extractLoop rest
          { st with lines := st.lines ++ [line], lineNum := st.lineNum + 1 }
    else
      extractLoop rest { st with lineNum := st.lineNum + 1 }

/-- Go `extractTickets` (parser.go:56-133): run the scan loop over the
lines of the content, then close out the last open ticket, feeding its
accumulated lines to `parseMetadataLines` when no metadata block was
open. -/
def extractTickets (content : String) : List Ticket :=
  let st := extractLoop (splitLinesGo content) {}
  if st.inTicket then
    let t :=
      if st.inMetadata then st.current
      else parseMetadataLines st.lines st.current
    st.tickets ++ [{ t with rawContent := trimSpace (joinLines st.lines) }]
  else st.tickets

/-- Go `generateHeader` (parser.go:294-313): marker from the type — the
Go switch has cases only for epic, task and subtask, so a spike (or the
zero value) gets no marker — then the title, with the key stripped and
re-appended in brackets when non-empty. -/
def generateHeader (t : Ticket) : String :=
  let pre :=
    if t.type = TicketTypeEpic then "# epic: "
    else if t.type = TicketTypeTask then "## task: "
    else if t.type = TicketTypeSubtask then "### subtask: "
    else ""
  let title :=
    if t.key ≠ "" then RemoveJiraKey t.title ++ " [" ++ t.key ++ "]"
    else t.title
  pre ++ title

/-- The lines Go `GenerateMarkdown` (parser.go:231-291) emits for one
ticket: header, raw content when present, the enriched block when
present, the metadata block (rule, marker, the non-empty fields, a
type-dependent parent reference, a blank line), then two blank lines. -/
def ticketLines (t : Ticket) : List String :=
  [generateHeader t]
  ++ (if t.rawContent ≠ "" then [t.rawContent] else [])
  ++ (if t.enriched ≠ "" then ["", "---", "*Enriched:*", t.enriched] else [])
  ++ (["---", "*Metadata:*"]
      ++ (if t.key ≠ "" then ["- Key: " ++ t.key] else [])
      ++ (if t.status ≠ "" then ["- Status: " ++ t.status] else [])
      ++ (if t.priority ≠ "" then ["- Priority: " ++ t.priority] else [])
      ++ (if t.type = TicketTypeEpic then
            (if t.epicKey ≠ "" then ["- EpicKey: " ++ t.epicKey] else [])
          else if t.type = TicketTypeTask then
            (if t.epicKey ≠ "" then ["- ParentKey: " ++ t.epicKey] else [])
          else if t.type = TicketTypeSubtask then
            (if t.parentKey ≠ "" then ["- TaskKey: " ++ t.parentKey] else [])
          else [])
      ++ [""])
  ++ ["", ""]

/-- Go `GenerateMarkdown` (parser.go:231-291): the per-ticket lines in
sequence, joined with newlines. -/
def GenerateMarkdown (tickets : List Ticket) : String :=
  joinLines (tickets.foldl (fun lines t => lines ++ ticketLines t) [])

/-- A file system, as the single-document loader sees it: each path maps
to the file's contents, or to nothing when the file does not exist
(`os.ReadFile` then fails). -/
def FileSystem := String → Option String

/-- Go `ParseFile` (parser.go:27-41): read the file — an error when it
does not exist — then extract the tickets. -/
def ParseFile (fs : FileSystem) (filePath : String) : Except String MarkdownFile :=
  match fs filePath with
  | none => Except.error "failed to read file"
  | some data =>
    Except.ok { path := filePath, tickets := extractTickets data, content := data }

/-- The caller-side fallback around `ParseFile` (cmd/epic.go:297-306 and
cmd/new.go:153-161): when `ParseFile` fails, start fresh with an empty
document at the same path. -/
def parseFileOrFresh (fs : FileSystem) (filePath : String) : MarkdownFile :=
  match ParseFile fs filePath with
  | Except.ok f => f
  | Except.error _ => { path := filePath, tickets := [], content := "" }

/-- Go `types.Context` (internal/jira/client.go:276-284): the three
key/id pairs the context manager reads and writes.  The `Updated`
timestamp is set only by the persistence step `Save` and carries no
state-machine content, so it is omitted. -/
structure Context where
  epicKey : String := ""
  epicID : String := ""
  taskKey : String := ""
  taskID : String := ""
  subtaskKey : String := ""
  subtaskID : String := ""
deriving DecidableEq, Repr

/-- Go context manager `SetEpic`: set the epic fields and clear the task
and subtask fields (the persistence step of `Save` is file IO and leaves
the fields unchanged). -/
def SetEpic (c : Context) (key id : String) : Context :=
  { c with epicKey := key, epicID := id,
           taskKey := "", taskID := "", subtaskKey := "", subtaskID := "" }

/-- Go context manager `SetTask`: set the task fields and clear the
subtask fields. -/
def SetTask (c : Context) (key id : String) : Context :=
  { c with taskKey := key, taskID := id, subtaskKey := "", subtaskID := "" }

/-- Go context manager `SetSubtask`: set the subtask fields only. -/
def SetSubtask (c : Context) (key id : String) : Context :=
  { c with subtaskKey := key, subtaskID := id }

/-- Go context manager `HasEpic`. -/
def HasEpic (c : Context) : Bool := c.epicKey ≠ ""

/-- Go context manager `HasTask`. -/
def HasTask (c : Context) : Bool := c.taskKey ≠ ""

/-- Go context manager `HasSubtask`. -/
def HasSubtask (c : Context) : Bool := c.subtaskKey ≠ ""

/-- Go context manager `String`: the fixed placeholder when both the epic
and the task key are empty; otherwise the levels accumulated in order
with `" → "` between non-empty ones (the initial empty accumulator is
folded into the first step). -/
def ContextString (c : Context) : String :=
  if c.epicKey = "" ∧ c.taskKey = "" then "No context set"
  else
    let result := if c.epicKey ≠ "" then "Epic: " ++ c.epicKey else ""
    let result :=
      if c.taskKey ≠ "" then
        (if result ≠ "" then result ++ " → " else result) ++ "Task: " ++ c.taskKey
      else result
    let result :=
      if c.subtaskKey ≠ "" then
        (if result ≠ "" then result ++ " → " else result) ++ "Subtask: " ++ c.subtaskKey
      else result
    result

/-- One entry of a directory listing, with its contents inline (a listed
regular file exists, so reading it succeeds). -/
structure DirEntry where
  name : String
  isDir : Bool
  content : String

/-- Go `isMarkdownFile` (cmd/status_tree.go:170-172). -/
def isMarkdownFile (name : String) : Bool :=
  hasSuf name ".md" || hasSuf name ".markdown"

/-- Go `findAllTickets` (cmd/status_tree.go:174-196) on a directory
listing, `none` when the tickets directory does not exist: the `ReadDir`
error is returned as an error; otherwise every regular markdown file is
parsed and all tickets are concatenated. -/
def findAllTickets (listing : Option (List DirEntry)) : Except String (List Ticket) :=
  match listing with
  | none => Except.error "could not read tickets directory"
  | some files =>
    Except.ok
      (files.foldl
        (fun acc f =>
          if f.isDir || !isMarkdownFile f.name then acc
          else acc ++ extractTickets f.content)
        [])

/-- Go `strings.Contains s sub` on character lists. -/
def containsSub : List Char → List Char → Bool
  | s, sub =>
    match s with
    | [] => sub.isEmpty
    | _ :: rest => isPreC sub s || containsSub rest sub

/-- Go `strings.ToLower` (ASCII case folding suffices for this codec). -/
def toLowerGo (s : String) : String := String.mk (s.data.map Char.toLower)

/-- Go `searchTickets` (the focus command, lines 114-149) on a directory
listing, `none` when the tickets directory does not exist: a missing
directory yields zero matches and no error; otherwise the tickets of
every regular markdown file whose lowercased title contains the
lowercased query are collected. -/
def searchTickets (listing : Option (List DirEntry)) (query : String) :
    Except String (List Ticket) :=
  match listing with
  | none => Except.ok []
  | some files =>
    Except.ok
      (files.foldl
        (fun acc f =>
          if f.isDir || !isMarkdownFile f.name then acc
          else
            acc ++ (extractTickets f.content).filter
              (fun t => containsSub (toLowerGo t.title).data (toLowerGo query).data))
        [])

/-- Dropping twice with the same predicate drops nothing new. -/
theorem dropWhileTwice {α : Type} (p : α → Bool) (l : List α) :
    List.dropWhile p (List.dropWhile p l) = List.dropWhile p l := by
  induction l with
  | nil => rfl
  | cons a l ih =>
    by_cases h : p a
    · simp [List.dropWhile_cons, h, ih]
    · simp [List.dropWhile_cons, h]

/-- Left trim is idempotent. -/
theorem ltrimC_idem (l : List Char) : ltrimC (ltrimC l) = ltrimC l := by
  unfold ltrimC
  exact dropWhileTwice goIsSpace l

/-- Right trim is idempotent. -/
theorem rtrimC_idem (l : List Char) : rtrimC (rtrimC l) = rtrimC l := by
  unfold rtrimC
  rw [List.reverse_reverse, dropWhileTwice]

/-- Right trim of a cons: the head survives unless everything after it is
whitespace, in which case the head survives exactly when it is not
whitespace itself. -/
theorem rtrimC_cons (a : Char) (l : List Char) :
    rtrimC (a :: l) =
      if rtrimC l = [] then (if goIsSpace a then [] else [a])
      else a :: rtrimC l := by
  unfold rtrimC
  rw [List.reverse_cons, List.dropWhile_append]
  have hiff : (List.dropWhile goIsSpace l.reverse).isEmpty = true ↔
      (List.dropWhile goIsSpace l.reverse).reverse = [] := by
    simp [List.isEmpty_iff]
  by_cases h : (List.dropWhile goIsSpace l.reverse).reverse = []
  · rw [if_pos (hiff.mpr h), if_pos h]
    by_cases ha : goIsSpace a
    · simp [List.dropWhile, ha]
    · simp [List.dropWhile, ha]
  · rw [if_neg (fun hc => h (hiff.mp hc)), if_neg h]
    simp

/-- Left and right trim commute. -/
theorem rtrimC_ltrimC_comm (l : List Char) :
    rtrimC (ltrimC l) = ltrimC (rtrimC l) := by
  induction l with
  | nil => rfl
  | cons a l ih =>
    by_cases h : goIsSpace a
    · have hl : ltrimC (a :: l) = ltrimC l := by simp [ltrimC, List.dropWhile_cons, h]
      rw [hl, ih, rtrimC_cons]
      by_cases hrt : rtrimC l = []
      · simp [hrt, h, ltrimC]
      · simp [hrt, ltrimC, List.dropWhile_cons, h]
    · have hl : ltrimC (a :: l) = a :: l := by simp [ltrimC, List.dropWhile_cons, h]
      rw [hl, rtrimC_cons]
      by_cases hrt : rtrimC l = []
      · simp [hrt, h, ltrimC, List.dropWhile_cons]
      · simp [hrt, ltrimC, List.dropWhile_cons, h]

/-- Trimming both ends is idempotent. -/
theorem trimC_idem (l : List Char) : trimC (trimC l) = trimC l := by
  unfold trimC
  rw [rtrimC_ltrimC_comm (rtrimC l), rtrimC_idem, ltrimC_idem]

/-- When no occurrence of the key pattern is left, the deletion scan is
the identity, whatever the fuel. -/
theorem dropMatchesF_no_match (f : Nat) :
    ∀ cs : List Char, hasMatch cs = false → dropMatchesF f cs = cs := by
  induction f with
  | zero => intro cs _; rfl
  | succ f ih =>
    intro cs h
    cases cs with
    | nil => rfl
    | cons c cs =>
      unfold hasMatch at h
      cases hm : rmAt (c :: cs) with
      | some r => rw [hm] at h; simp at h
      | none =>
        rw [hm] at h
        simp only [Option.isSome_none, Bool.false_or] at h
        unfold dropMatchesF
        rw [hm, ih cs h]

/-- C6 counterexample: key-stripping is not idempotent.  Removing the
bracketed key `[X-1]` from `"A[X-1]-2"` joins the surrounding text into
the new key-shaped substring `"A-2"`, which a second application removes
as well, so stripping twice differs from stripping once. -/
theorem RemoveJiraKey_twice_ne_once :
    RemoveJiraKey (RemoveJiraKey "A[X-1]-2") ≠ RemoveJiraKey "A[X-1]-2" := by
  decide

/-- C6 (amended): stripping the bracketed key from a title twice yields
the same result as stripping it once, provided the first strip leaves no
further occurrence of the key pattern in its result (a removal can
otherwise splice surrounding text into a new key-shaped substring). -/
theorem RemoveJiraKey_idem_of_no_new_match (s : String)
    (h : hasMatch (RemoveJiraKey s).data = false) :
    RemoveJiraKey (RemoveJiraKey s) = RemoveJiraKey s := by
  unfold RemoveJiraKey at h ⊢
  have hd : (String.mk (trimC (dropMatchesF s.data.length s.data))).data
      = trimC (dropMatchesF s.data.length s.data) := rfl
  rw [hd] at h ⊢
  rw [dropMatchesF_no_match _ _ h, trimC_idem]

/-- C6 witness: a representative title where one strip removes the key
and leaves no further key-shaped text. -/
theorem RemoveJiraKey_idem_of_no_new_match_witness :
    RemoveJiraKey (RemoveJiraKey "Fix login [AB-12]") = RemoveJiraKey "Fix login [AB-12]" :=
  RemoveJiraKey_idem_of_no_new_match "Fix login [AB-12]" (by decide)

/-- C5: after `SetEpic` from any prior context, the epic key is the one
just set and both `HasTask` and `HasSubtask` are false — an epic switch
clears every finer focus level (context manager `SetEpic`,
src/unnamed/part_005:526-534). -/
theorem SetEpic_cascading_reset (c : Context) (key id : String) :
    (SetEpic c key id).epicKey = key ∧
    HasTask (SetEpic c key id) = false ∧
    HasSubtask (SetEpic c key id) = false := by
  refine ⟨rfl, ?_, ?_⟩ <;> simp [SetEpic, HasTask, HasSubtask]

/-- C8: `SetTask` sets the task key, clears both subtask fields, and
leaves both epic fields exactly as they were (context manager `SetTask`,
src/unnamed/part_005:548-554). -/
theorem SetTask_frame (c : Context) (key id : String) :
    (SetTask c key id).taskKey = key ∧
    (SetTask c key id).subtaskKey = "" ∧
    (SetTask c key id).subtaskID = "" ∧
    (SetTask c key id).epicKey = c.epicKey ∧
    (SetTask c key id).epicID = c.epicID :=
  ⟨rfl, rfl, rfl, rfl, rfl⟩

/-- A concatenation of strings is empty exactly when both parts are. -/
theorem strAppendEqEmpty (a b : String) : a ++ b = "" ↔ a = "" ∧ b = "" := by
  constructor
  · intro h
    have hd := congrArg String.data h
    rw [String.data_append] at hd
    have hn := List.append_eq_nil.mp hd
    exact ⟨String.ext hn.1, String.ext hn.2⟩
  · rintro ⟨rfl, rfl⟩
    rfl

/-- The rendering the spec describes: the non-empty levels, in order,
joined with the separator. -/
def levelStrings (c : Context) : List String :=
  (if c.epicKey ≠ "" then ["Epic: " ++ c.epicKey] else [])
  ++ (if c.taskKey ≠ "" then ["Task: " ++ c.taskKey] else [])
  ++ (if c.subtaskKey ≠ "" then ["Subtask: " ++ c.subtaskKey] else [])

/-- Joining with the `" → "` separator, deepest level last. -/
def joinWithArrow : List String → String
  | [] => ""
  | [x] => x
  | x :: xs => x ++ " → " ++ joinWithArrow xs

/-- Reassociation of the separator against a task level. -/
theorem arrowTaskAssoc (s : String) :
    " → " ++ ("Task: " ++ s) = " → Task: " ++ s := by
  rw [← String.append_assoc]
  congr 1

/-- Reassociation of the separator against a subtask level. -/
theorem arrowSubtaskAssoc (s : String) :
    " → " ++ ("Subtask: " ++ s) = " → Subtask: " ++ s := by
  rw [← String.append_assoc]
  congr 1

/-- C9 counterexample: a context whose only non-empty field is the
subtask key renders as the fixed placeholder, not as its subtask level,
because the Go `String` method returns early whenever both the epic and
the task key are empty. -/
theorem ContextString_subtask_only :
    ContextString { subtaskKey := "OBS-9" } = "No context set" ∧
    joinWithArrow (levelStrings { subtaskKey := "OBS-9" }) = "Subtask: OBS-9" :=
  ⟨rfl, rfl⟩

/-- C9 (amended): the rendering joins exactly the non-empty levels with
`" → "`, deepest level last — except that when both the epic and the
task key are empty it is the fixed placeholder `"No context set"`, even
if a subtask key is set. -/
theorem ContextString_spec (c : Context) :
    ContextString c =
      if c.epicKey = "" ∧ c.taskKey = "" then "No context set"
      else joinWithArrow (levelStrings c) := by
  by_cases he : c.epicKey = "" <;> by_cases ht : c.taskKey = "" <;>
    by_cases hs : c.subtaskKey = "" <;>
      simp [ContextString, levelStrings, joinWithArrow, he, ht, hs,
        strAppendEqEmpty, String.append_assoc, arrowTaskAssoc, arrowSubtaskAssoc]

/-- C2 counterexample: on a file system with no files, `ParseFile`
returns an error, not an empty Document — `os.ReadFile` fails and
parser.go:29-31 propagates the failure. -/
theorem ParseFile_missing_errors :
    ParseFile (fun _ => none) "inbox.md" = Except.error "failed to read file" :=
  rfl

/-- C2 (amended): for a path that names no existing file, `ParseFile`
itself returns an error; the empty-Document tolerance lives in its
callers, which substitute a fresh empty document at the same path when
`ParseFile` fails (cmd/epic.go:297-306, cmd/new.go:153-161). -/
theorem ParseFile_missing_spec (fs : FileSystem) (path : String)
    (h : fs path = none) :
    ParseFile fs path = Except.error "failed to read file" ∧
    parseFileOrFresh fs path = { path := path, tickets := [], content := "" } := by
  have he : ParseFile fs path = Except.error "failed to read file" := by
    unfold ParseFile
    rw [h]
  exact ⟨he, by unfold parseFileOrFresh; rw [he]⟩

/-- C2 witness: the amended behaviour at a concrete missing path. -/
theorem ParseFile_missing_spec_witness :
    ParseFile (fun _ => none) "tickets/OBS-1.md" = Except.error "failed to read file" ∧
    parseFileOrFresh (fun _ => none) "tickets/OBS-1.md" =
      { path := "tickets/OBS-1.md", tickets := [], content := "" } :=
  ParseFile_missing_spec (fun _ => none) "tickets/OBS-1.md" rfl

/-- C7 counterexample: on a missing tickets directory the status-tree
scan `findAllTickets` returns an error (cmd/status_tree.go:176-180 wraps
the `ReadDir` failure), not an empty result. -/
theorem findAllTickets_missing_errors :
    findAllTickets none = Except.error "could not read tickets directory" :=
  rfl

/-- C7 (amended): on a directory path that does not exist, the focus
command's directory-wide scan `searchTickets` returns an empty result
sequence and no error, but the status-tree scan `findAllTickets` returns
an error instead. -/
theorem searchTickets_missing_spec (query : String) :
    searchTickets none query = Except.ok [] ∧
    findAllTickets none = Except.error "could not read tickets directory" :=
  ⟨rfl, rfl⟩

/-- A line that trims to the bare rule is never a ticket header. -/
theorem rule_not_header {r : String} (hr : trimSpace r = "---") :
    isTicketHeader r = false := by
  unfold isTicketHeader
  simp only [hr]
  decide

/-- A ticket header never trims to the metadata marker. -/
theorem header_not_marker {n : String} (h : isTicketHeader n = true) :
    trimSpace n ≠ "*Metadata:*" := by
  intro hc
  unfold isTicketHeader at h
  simp only [hc] at h
  exact absurd h (by decide)

/-- Shared step lemma for the metadata lookahead: inside a ticket, a line
trimming to the bare rule whose successor does not trim to the metadata
marker makes the loop push both lines into the body accumulator,
unchanged, and continue in the same mode. -/
theorem extractLoop_rule_pushback (st : ExtractState) (r n : String)
    (rest : List String) (hin : st.inTicket = true) (hr : trimSpace r = "---")
    (hn : trimSpace n ≠ "*Metadata:*") :
    extractLoop (r :: n :: rest) st =
      extractLoop rest
        { st with lines := st.lines ++ [r, n], lineNum := st.lineNum + 2 } := by
  rw [extractLoop]
  simp only [rule_not_header hr, hin, hr, if_neg hn]
  simp

/-- C3 (amended): a body line that is a bare rule whose immediately
following line is not the metadata marker never starts a metadata block:
the parser pushes both lines back into the ticket's body accumulator
unchanged and continues in the same mode, so the rule reaches
`rawContent` verbatim unless a later rule-plus-marker pair in the same
ticket starts a metadata block, whose entry clears the accumulated body
(parser.go:96-97). -/
theorem metadata_lookahead_pushback (st : ExtractState) (r n : String)
    (rest : List String) (hin : st.inTicket = true) (hr : trimSpace r = "---")
    (hn : trimSpace n ≠ "*Metadata:*") :
    extractLoop (r :: n :: rest) st =
      extractLoop rest
        { st with lines := st.lines ++ [r, n], lineNum := st.lineNum + 2 } :=
  extractLoop_rule_pushback st r n rest hin hr hn

/-- C3 witness: the pushback step at a concrete state and lines. -/
theorem metadata_lookahead_pushback_witness :
    extractLoop ["---", "sep", "tail"] { inTicket := true } =
      extractLoop ["tail"]
        { inTicket := true, lines := ["---", "sep"], lineNum := 2 } :=
  metadata_lookahead_pushback { inTicket := true } "---" "sep" ["tail"]
    rfl rfl (by decide)

/-- C3 counterexample: in a document whose ticket later contains a real
metadata block, a bare rule followed by a non-marker line is not
preserved in `rawContent` — entering the later metadata block clears the
accumulated body, so the parsed ticket's `rawContent` is empty and the
rule is lost. -/
theorem rule_line_swallowed :
    (extractTickets (joinLines
      ["# epic: t", "body", "---", "not", "---", "*Metadata:*", "- Key: K"])).map
        Ticket.rawContent = [""] ∧
    trimSpace "not" ≠ "*Metadata:*" := by
  constructor
  · decide
  · decide

/-- C10: inside a ticket, a would-be ticket header line immediately
following a bare rule line is consumed by the metadata lookahead and
appended to the current ticket's body; the loop continues with tickets,
open ticket and mode unchanged, so no new Ticket Record is opened at
that line. -/
theorem header_after_rule_swallowed (st : ExtractState) (r h : String)
    (rest : List String) (hin : st.inTicket = true) (hr : trimSpace r = "---")
    (hh : isTicketHeader h = true) :
    extractLoop (r :: h :: rest) st =
      extractLoop rest
        { st with lines := st.lines ++ [r, h], lineNum := st.lineNum + 2 } :=
  extractLoop_rule_pushback st r h rest hin hr (header_not_marker hh)

/-- C10 witness: a concrete task header is swallowed after a rule. -/
theorem header_after_rule_swallowed_witness :
    extractLoop ["---", "## task: x", "tail"] { inTicket := true } =
      extractLoop ["tail"]
        { inTicket := true, lines := ["---", "## task: x"], lineNum := 2 } :=
  header_after_rule_swallowed { inTicket := true } "---" "## task: x" ["tail"]
    rfl rfl (by decide)

/-- The C1 failing input: a single task with a body and no key. -/
def roundTripInput : Ticket :=
  { type := TicketTypeTask, title := "T", rawContent := "hello" }

/-- C1: the round trip loses the body.  Re-parsing the document generated
for `roundTripInput` yields one ticket whose `rawContent` is empty, not
`"hello"`: on reaching the generated rule-plus-marker pair the parser
clears the accumulated body (parser.go:96-97), so every document
produced by `GenerateMarkdown` sheds its tickets' bodies when parsed
back (and the `*Enriched:*` block, which the parser never reads, is lost
the same way). -/
theorem roundtrip_loses_rawContent :
    (extractTickets (GenerateMarkdown [roundTripInput])).map Ticket.rawContent
      = [""] ∧
    roundTripInput.rawContent = "hello" :=
  ⟨by decide, rfl⟩

/-- Left trim keeps a non-whitespace head. -/
theorem ltrimC_cons_nonspace {a : Char} (h : goIsSpace a = false) (l : List Char) :
    ltrimC (a :: l) = a :: l := by
  simp [ltrimC, List.dropWhile_cons, h]

/-- Left trim drops a whitespace head. -/
theorem ltrimC_cons_space {a : Char} (h : goIsSpace a = true) (l : List Char) :
    ltrimC (a :: l) = ltrimC l := by
  simp [ltrimC, List.dropWhile_cons, h]

/-- Right trim of a concatenation: when the right part is all whitespace
the left part alone is right-trimmed; otherwise the left part survives
whole. -/
theorem rtrimC_append (p v : List Char) :
    rtrimC (p ++ v) = if rtrimC v = [] then rtrimC p else p ++ rtrimC v := by
  have hiff : (List.dropWhile goIsSpace v.reverse).isEmpty = true ↔ rtrimC v = [] := by
    simp [rtrimC, List.isEmpty_iff]
  by_cases h : rtrimC v = []
  · rw [if_pos h]
    show ((p ++ v).reverse.dropWhile goIsSpace).reverse = rtrimC p
    rw [List.reverse_append, List.dropWhile_append, if_pos (hiff.mpr h)]
    rfl
  · rw [if_neg h]
    show ((p ++ v).reverse.dropWhile goIsSpace).reverse = p ++ rtrimC v
    rw [List.reverse_append, List.dropWhile_append,
      if_neg (fun hc => h (hiff.mp hc)), List.reverse_append, List.reverse_reverse]
    rfl

/-- A prefix of a list is a prefix of any right extension of it. -/
theorem isPreC_append {p : List Char} (w : List Char) :
    ∀ {s : List Char}, isPreC p s = true → isPreC p (s ++ w) = true := by
  induction p with
  | nil => intro s _; rfl
  | cons a as ih =>
    intro s h
    cases s with
    | nil => exact absurd h (by simp [isPreC])
    | cons b bs =>
      rw [List.cons_append]
      unfold isPreC at h ⊢
      simp only [Bool.and_eq_true] at h ⊢
      exact ⟨h.1, ih h.2⟩

/-- A non-prefix stays a non-prefix of any right extension, as long as
the candidate prefix is no longer than the original list. -/
theorem isPreC_append_false {p : List Char} (w : List Char) :
    ∀ {s : List Char}, p.length ≤ s.length → isPreC p s = false →
      isPreC p (s ++ w) = false := by
  induction p with
  | nil => intro s _ h; exact absurd h (by simp [isPreC])
  | cons a as ih =>
    intro s hlen h
    cases s with
    | nil => simp at hlen
    | cons b bs =>
      rw [List.cons_append]
      unfold isPreC at h ⊢
      cases hab : (a == b) with
      | false => simp [hab]
      | true =>
        rw [hab] at h
        simp only [Bool.true_and] at h ⊢
        exact ih (Nat.le_of_succ_le_succ hlen) h

/-- The trimmed form of a `"- ParentKey: "` metadata line: the trailing
whitespace of the value is removed; a whitespace-only value leaves the
bare field name. -/
theorem trim_parentKey_line (v : String) :
    trimSpace ("- ParentKey: " ++ v) =
      if rtrimC v.data = [] then "- ParentKey:"
      else String.mk ("- ParentKey: ".data ++ rtrimC v.data) := by
  unfold trimSpace trimC
  rw [String.data_append, rtrimC_append]
  by_cases h : rtrimC v.data = []
  · rw [if_pos h, if_pos h]
    decide
  · rw [if_neg h, if_neg h]
    rfl

/-- C4 counterexample: a `ParentKey` metadata line on a spike ticket is
ignored entirely — parseMetadataLine:163-170 assigns the epic reference
only for `TicketTypeTask` and the parent-task reference only for
`TicketTypeSubtask`, and a spike matches neither arm. -/
theorem parentKey_spike_ignored :
    parseMetadataLine "- ParentKey: OBS-1" { type := TicketTypeSpike } =
      ({ type := TicketTypeSpike } : Ticket) ∧
    ({ type := TicketTypeSpike } : Ticket).epicKey = "" := by
  constructor
  · decide
  · rfl

/-- C4 (amended): a `"- ParentKey: v"` metadata line assigns the trimmed
value to the epic-reference field when the owning ticket is a `task`, and
to the parent-task-reference field when it is a `subtask`; for a `spike`
(and for an `epic`) the line is ignored and the ticket is returned
unchanged. -/
theorem parseMetadataLine_parentKey_dispatch (t : Ticket) (v : String) :
    parseMetadataLine ("- ParentKey: " ++ v) t =
      if t.type = TicketTypeTask then { t with epicKey := trimSpace v }
      else if t.type = TicketTypeSubtask then { t with parentKey := trimSpace v }
      else t := by
  simp only [parseMetadataLine]
  rw [trim_parentKey_line]
  by_cases h : rtrimC v.data = []
  · have hv : trimSpace v = "" := by
      unfold trimSpace trimC
      rw [h]
      rfl
    rw [if_pos h, hv]
    rfl
  · rw [if_neg h]
    have c0 : hasPre (String.mk ("- ParentKey: ".data ++ rtrimC v.data)) "- " = true :=
      isPreC_append _ (by decide)
    have c1 : trimPre (String.mk ("- ParentKey: ".data ++ rtrimC v.data)) "- " =
        String.mk ("ParentKey: ".data ++ rtrimC v.data) := by
      unfold trimPre
      rw [if_pos c0]
      rfl
    have cKey : hasPre (String.mk ("ParentKey: ".data ++ rtrimC v.data)) "Key:" = false :=
      isPreC_append_false _ (by decide) (by decide)
    have cSt : hasPre (String.mk ("ParentKey: ".data ++ rtrimC v.data)) "Status:" = false :=
      isPreC_append_false _ (by decide) (by decide)
    have cPr : hasPre (String.mk ("ParentKey: ".data ++ rtrimC v.data)) "Priority:" = false :=
      isPreC_append_false _ (by decide) (by decide)
    have cEp : hasPre (String.mk ("ParentKey: ".data ++ rtrimC v.data)) "EpicKey:" = false :=
      isPreC_append_false _ (by decide) (by decide)
    have cPK : hasPre (String.mk ("ParentKey: ".data ++ rtrimC v.data)) "ParentKey:" = true :=
      isPreC_append _ (by decide)
    have cDrop : trimPre (String.mk ("ParentKey: ".data ++ rtrimC v.data)) "ParentKey:" =
        String.mk (' ' :: rtrimC v.data) := by
      unfold trimPre
      rw [if_pos cPK]
      rfl
    have cVal : trimSpace (String.mk (' ' :: rtrimC v.data)) = trimSpace v := by
      unfold trimSpace trimC
      congr 1
      rw [show rtrimC (' ' :: rtrimC v.data) = ' ' :: rtrimC v.data by
            rw [rtrimC_cons, rtrimC_idem, if_neg h],
          ltrimC_cons_space (by decide)]
    rw [c0]
    simp only [if_true]
    rw [c1, cKey, cSt, cPr, cEp, cPK, cDrop, cVal]
    simp

/-- C4 witness: the dispatch at concrete task and subtask tickets. -/
theorem parseMetadataLine_parentKey_dispatch_witness :
    parseMetadataLine ("- ParentKey: " ++ "OBS-1") { type := TicketTypeTask } =
      if (({ type := TicketTypeTask } : Ticket)).type = TicketTypeTask then
        { ({ type := TicketTypeTask } : Ticket) with epicKey := trimSpace "OBS-1" }
      else if (({ type := TicketTypeTask } : Ticket)).type = TicketTypeSubtask then
        { ({ type := TicketTypeTask } : Ticket) with parentKey := trimSpace "OBS-1" }
      else { type := TicketTypeTask } :=
  parseMetadataLine_parentKey_dispatch { type := TicketTypeTask } "OBS-1"
